import Mathlib

/-!
Verification development for the Secure-Web-Socket repository.

The repository implements an encrypted WebSocket chat on top of the Noise
protocol (pattern `Noise_XXpsk2_25519_AESGCM_SHA256`), with per-session
message counters, a time-based rekey ceremony driven by the server, and a
QKD-keyed relay that fans messages out to named connections.

The `NoiseSession` wrappers, the per-task message loops, the rekey ceremony
ordering, the relay addressing and the QKD key-length validation are embedded
directly from the source files (`src/client.rs`, `src/server.rs`,
`src/qkd_server.rs`, `src/bob.rs`, `src/lib.rs`).  The `snow` library's
transport layer (AEAD cipher states, `write_message`/`read_message`,
`rekey_incoming`/`rekey_outgoing`, the handshake key derivation) and the
`serde_json` envelope encoding are external dependencies whose code is not in
the repository; they are modelled from the specification's description of
their contracts (spec sections 4.2-4.5), as noted on each such definition.
-/

namespace SecureWS

/-- A byte is modelled as a natural number; well-formed bytes are below 256. -/
abbrev Byte := Nat

/-- A byte string. -/
abbrev Bytes := List Nat

/-- All entries of the byte string are genuine bytes (below 256). -/
def ValidBytes (bs : Bytes) : Prop := ∀ b ∈ bs, b < 256

instance (bs : Bytes) : Decidable (ValidBytes bs) := by
  unfold ValidBytes
  infer_instance

/-- Modelled from the spec: the keystream byte of the idealized AEAD cipher
(spec §4.3: AES-GCM, fixed suite), at position `i` under key `k` and nonce
`n`.  Always below 256. -/
def ksByte (k n i : Nat) : Nat := (k + 131 * n + 257 * i + 89) % 256

/-- Modelled from the spec: masking of a plaintext with the keystream starting
at position `i` (the stream-cipher half of the AEAD). -/
def xorStream (k n : Nat) : Nat → Bytes → Bytes
  | _, [] => []
  | i, b :: rest => (b + ksByte k n i) % 256 :: xorStream k n (i + 1) rest

/-- Modelled from the spec: unmasking, the inverse of `xorStream` on valid
bytes. -/
def unxorStream (k n : Nat) : Nat → Bytes → Bytes
  | _, [] => []
  | i, c :: rest => (c + (256 - ksByte k n i)) % 256 :: unxorStream k n (i + 1) rest

/-- Modelled from the spec: a compression of the plaintext used by the
authentication tag. -/
def ptHash : Bytes → Nat
  | [] => 7
  | b :: rest => (ptHash rest * 131 + b + 1) % 65536

/-- Modelled from the spec: the 16-byte authentication tag of the idealized
AEAD (spec §4.3: a fixed-size authentication tag is appended). -/
def aeadTag (k n : Nat) (pt : Bytes) : Bytes :=
  (List.range 16).map (fun i => (k * 31 + n * 131 + ptHash pt * 257 + i * 89 + 5) % 256)

/-- Modelled from the spec: AEAD encryption — masked plaintext followed by the
16-byte tag, so the output length is always `len(plaintext) + 16`
(spec §4.3). -/
def aeadEncrypt (k n : Nat) (pt : Bytes) : Bytes :=
  xorStream k n 0 pt ++ aeadTag k n pt

/-- Modelled from the spec: AEAD decryption — fails on inputs shorter than the
tag and on tag mismatch, otherwise recovers the plaintext (spec §4.3). -/
def aeadDecrypt (k n : Nat) (ct : Bytes) : Option Bytes :=
  if ct.length < 16 then none
  else
    let body := ct.take (ct.length - 16)
    let tag := ct.drop (ct.length - 16)
    let pt := unxorStream k n 0 body
    if aeadTag k n pt = tag then some pt else none

theorem length_xorStream (k n i : Nat) (bs : Bytes) :
    (xorStream k n i bs).length = bs.length := by
  induction bs generalizing i with
  | nil => simp [xorStream]
  | cons b rest ih => simp [xorStream, ih]

theorem ksByte_lt (k n i : Nat) : ksByte k n i < 256 := by
  unfold ksByte
  exact Nat.mod_lt _ (by norm_num)

theorem unxor_xor (k n : Nat) (bs : Bytes) (h : ValidBytes bs) :
    ∀ i, unxorStream k n i (xorStream k n i bs) = bs := by
  induction bs with
  | nil => intro i; simp [xorStream, unxorStream]
  | cons b rest ih =>
    intro i
    have hb : b < 256 := h b (List.mem_cons_self b rest)
    have hrest : ValidBytes rest := fun x hx => h x (List.mem_cons_of_mem b hx)
    have hk : ksByte k n i < 256 := ksByte_lt k n i
    simp only [xorStream, unxorStream]
    rw [ih hrest (i + 1)]
    congr 1
    omega

theorem length_aeadEncrypt (k n : Nat) (pt : Bytes) :
    (aeadEncrypt k n pt).length = pt.length + 16 := by
  simp [aeadEncrypt, length_xorStream, aeadTag]

theorem aead_roundtrip (k n : Nat) (pt : Bytes) (h : ValidBytes pt) :
    aeadDecrypt k n (aeadEncrypt k n pt) = some pt := by
  have hlen : (aeadEncrypt k n pt).length = pt.length + 16 := length_aeadEncrypt k n pt
  have hxlen : (xorStream k n 0 pt).length = pt.length := length_xorStream k n 0 pt
  unfold aeadDecrypt
  rw [hlen]
  have hnot : ¬ (pt.length + 16 < 16) := by omega
  simp only [hnot, if_false]
  have hsub : pt.length + 16 - 16 = pt.length := by omega
  rw [hsub]
  unfold aeadEncrypt
  rw [List.take_left' hxlen, List.drop_left' hxlen]
  rw [unxor_xor k n pt h 0]
  simp

/-- Modelled from the spec: a directional cipher state of the snow transport —
a symmetric key together with its strictly monotonic nonce counter
(spec §3, TransportSession). -/
structure CipherState where
  key : Nat
  nonce : Nat
deriving DecidableEq

/-- Modelled from the spec: the one-way key-derivation step used by key
rotation, seeded by the existing key (spec §4.4: no new Diffie-Hellman
exchange). -/
def rekeyKey (k : Nat) : Nat := (k * 2654435761 + 2654435769) % 4294967296

/-- Modelled from the spec: rotating one directional cipher state — install
the derived key and reset the nonce counter to zero (spec §4.4). -/
def CipherState.rekey (c : CipherState) : CipherState :=
  { key := rekeyKey c.key, nonce := 0 }

/-- Modelled from the spec: snow's `TransportState` — two independent
directional cipher states, send and receive (spec §3). -/
structure TransportState where
  send : CipherState
  recv : CipherState
deriving DecidableEq

/-- Modelled from the spec: snow `TransportState::write_message` —
AEAD-encrypt under the send-direction key and current nonce, then advance the
send nonce by one (spec §4.3). -/
def TransportState.write_message (t : TransportState) (payload : Bytes) :
    Bytes × TransportState :=
  (aeadEncrypt t.send.key t.send.nonce payload,
   { t with send := { key := t.send.key, nonce := t.send.nonce + 1 } })

/-- Modelled from the spec: snow `TransportState::read_message` — AEAD-decrypt
under the receive-direction key and current nonce; on success advance the
receive nonce by one, on failure leave the state unchanged (spec §4.3). -/
def TransportState.read_message (t : TransportState) (ct : Bytes) :
    Option (Bytes × TransportState) :=
  match aeadDecrypt t.recv.key t.recv.nonce ct with
  | some pt => some (pt, { t with recv := { key := t.recv.key, nonce := t.recv.nonce + 1 } })
  | none => none

/-- Modelled from the spec: snow `TransportState::rekey_incoming` — rotate the
receive-direction cipher state (spec §4.4). -/
def TransportState.rekey_incoming (t : TransportState) : TransportState :=
  { t with recv := t.recv.rekey }

/-- Modelled from the spec: snow `TransportState::rekey_outgoing` — rotate the
send-direction cipher state (spec §4.4). -/
def TransportState.rekey_outgoing (t : TransportState) : TransportState :=
  { t with send := t.send.rekey }

/-- Modelled from the spec: the pair of directional transport keys both sides
derive from the 3-message handshake transcript with the PSK mixed into the
key-derivation chain (spec §4.2).  `eI eR sI sR` stand for the ephemeral and
static key material of initiator and responder. -/
def handshakeKeys (psk : Bytes) (eI eR sI sR : Nat) : Nat × Nat :=
  let h := (ptHash psk * 3 + eI * 5 + eR * 7 + sI * 11 + sR * 13) % 65536
  (2 * h + 1, 2 * h + 2)

/-- Modelled from the spec: the completed 3-message `XXpsk2` handshake
(spec §4.2).  With a valid 32-byte PSK shared by both roles it yields the
initiator's and the responder's transport states, holding the same directional
key pair with mirrored orientation and both nonce counters at zero; with a PSK
of any other length the handshake cannot be built (spec §3: hard
precondition). -/
def noiseHandshake (psk : Bytes) (eI eR sI sR : Nat) :
    Option (TransportState × TransportState) :=
  if psk.length = 32 then
    let ks := handshakeKeys psk eI eR sI sR
    some ({ send := { key := ks.1, nonce := 0 }, recv := { key := ks.2, nonce := 0 } },
          { send := { key := ks.2, nonce := 0 }, recv := { key := ks.1, nonce := 0 } })
  else none

/-- Two transport states are in sync when each side's send state matches the
other side's receive state, in both directions. -/
def Sync (a b : TransportState) : Prop :=
  a.send = b.recv ∧ a.recv = b.send

instance (a b : TransportState) : Decidable (Sync a b) := by
  unfold Sync
  infer_instance

theorem read_write_of_sync (a b : TransportState) (h : Sync a b) (pt : Bytes)
    (hv : ValidBytes pt) :
    b.read_message (a.write_message pt).1
      = some (pt, { b with recv := { key := b.recv.key, nonce := b.recv.nonce + 1 } }) := by
  obtain ⟨h1, _⟩ := h
  unfold TransportState.read_message TransportState.write_message
  simp only [← h1]
  rw [aead_roundtrip a.send.key a.send.nonce pt hv]

theorem sync_step (a b : TransportState) (h : Sync a b) :
    Sync { a with send := { key := a.send.key, nonce := a.send.nonce + 1 } }
         { b with recv := { key := b.recv.key, nonce := b.recv.nonce + 1 } } := by
  obtain ⟨h1, h2⟩ := h
  constructor
  · simp [← h1]
  · simpa using h2

theorem sync_swap (a b : TransportState) (h : Sync a b) : Sync b a :=
  ⟨h.2.symm, h.1.symm⟩

/-- The error taxonomy of `client.rs`/`server.rs`/`qkd_server.rs`
(`enum NoiseError`). -/
inductive NoiseError
  | HandshakeError (msg : String)
  | EncryptionError (msg : String)
  | DecryptionError (msg : String)
deriving DecidableEq

/-- The tagged wire envelope `enum ControlMessage` of `client.rs`/`server.rs`:
either a chat content message or the rekey control signal. -/
inductive ControlMessage
  | Chat (sender content : String)
  | Rekey
deriving DecidableEq

/-- Modelled from the spec: an injective length-prefixed string encoding, the
building block of the serde_json envelope serialization (spec §4.5). -/
def encodeStr (s : String) : Bytes :=
  s.length :: (s.toList.map Char.toNat)

/-- Modelled from the spec: decoding a length-prefixed string, returning the
string and the remaining bytes. -/
def decodeStr : Bytes → Option (String × Bytes)
  | [] => none
  | n :: rest =>
    if n ≤ rest.length then
      some (String.mk ((rest.take n).map Char.ofNat), rest.drop n)
    else none

/-- Modelled from the spec: `serde_json::to_string` on `ControlMessage` — a
serialization multiplexing the two payload shapes by an explicit type tag
(spec §4.5). -/
def serializeControl : ControlMessage → Bytes
  | .Rekey => [0]
  | .Chat s c => 1 :: (encodeStr s ++ encodeStr c)

/-- Modelled from the spec: `serde_json::from_str` on `ControlMessage` — a
partial inverse of `serializeControl`; malformed structure and unrecognized
type tags fail to decode (spec §4.5). -/
def deserializeControl (b : Bytes) : Option ControlMessage :=
  match b with
  | [0] => some ControlMessage.Rekey
  | 1 :: rest =>
    match decodeStr rest with
    | some (s, rest2) =>
      match decodeStr rest2 with
      | some (c, []) => some (ControlMessage.Chat s c)
      | _ => none
    | _ => none
  | _ => none

/-- The WebSocket frames the incoming tasks distinguish: binary ciphertext,
close, and everything else (ignored). -/
inductive WsMessage
  | Binary (data : Bytes)
  | Close
  | Other

/-- Whether a receive-loop iteration continues the loop or breaks out of it. -/
inductive LoopAction
  | cont
  | stop
deriving DecidableEq

namespace Client

/-- `struct NoiseSession` of `src/client.rs` (lines 50-54): the transport
state plus the message and rekey counters. -/
structure NoiseSession where
  transport : TransportState
  message_count : Nat
  rekey_count : Nat
deriving DecidableEq

/-- `NoiseSession::new` of `src/client.rs` (lines 57-63). -/
def NoiseSession.new (transport : TransportState) : NoiseSession :=
  { transport := transport, message_count := 0, rekey_count := 0 }

/-- `NoiseSession::encrypt` of `src/client.rs` (lines 65-75): write through
the transport and increment the message counter. -/
def NoiseSession.encrypt (s : NoiseSession) (plaintext : Bytes) :
    Bytes × NoiseSession :=
  let r := s.transport.write_message plaintext
  (r.1, { s with transport := r.2, message_count := s.message_count + 1 })

/-- `NoiseSession::decrypt` of `src/client.rs` (lines 77-87): read through the
transport; on success increment the message counter, on failure return
`DecryptionError` and change nothing. -/
def NoiseSession.decrypt (s : NoiseSession) (ciphertext : Bytes) :
    Except NoiseError (Bytes × NoiseSession) :=
  match s.transport.read_message ciphertext with
  | some (pt, t) =>
    Except.ok (pt, { s with transport := t, message_count := s.message_count + 1 })
  | none => Except.error (NoiseError.DecryptionError "decryption failed")

/-- `NoiseSession::perform_rekey` of `src/client.rs` (lines 89-96): increment
the rekey counter and rotate the incoming then the outgoing cipher state. -/
def NoiseSession.perform_rekey (s : NoiseSession) : NoiseSession :=
  { s with transport := (s.transport.rekey_incoming).rekey_outgoing,
           rekey_count := s.rekey_count + 1 }

/-- One iteration of the client `incoming_task` loop of `src/client.rs`
(lines 146-194): decrypt binary frames, dispatch on the decoded envelope
(chat is displayed, a rekey signal triggers `perform_rekey`, decode failures
are displayed and dropped), continue on errors, stop on close. -/
def incomingStep (s : NoiseSession) (msg : WsMessage) : NoiseSession × LoopAction :=
  match msg with
  | .Binary data =>
    match s.decrypt data with
    | .ok r =>
      match deserializeControl r.1 with
      | some (ControlMessage.Chat _ _) => (r.2, LoopAction.cont)
      | some ControlMessage.Rekey => (r.2.perform_rekey, LoopAction.cont)
      | none => (r.2, LoopAction.cont)
    | .error _ => (s, LoopAction.cont)
  | .Close => (s, LoopAction.stop)
  | .Other => (s, LoopAction.cont)

end Client

namespace Server

/-- `struct NoiseSession` of `src/server.rs` (lines 55-60): the transport
state, the message counter, the scheduled rekey deadline and the rekey
counter. -/
structure NoiseSession where
  transport : TransportState
  message_count : Nat
  next_rekey_time : Nat
  rekey_count : Nat
deriving DecidableEq

/-- `NoiseSession::new` of `src/server.rs` (lines 63-77); the random initial
interval drawn from 30-120 seconds and the current instant are passed as
parameters. -/
def NoiseSession.new (transport : TransportState) (now initial_interval : Nat) :
    NoiseSession :=
  { transport := transport, message_count := 0,
    next_rekey_time := now + initial_interval, rekey_count := 0 }

/-- `NoiseSession::encrypt` of `src/server.rs` (lines 79-89). -/
def NoiseSession.encrypt (s : NoiseSession) (plaintext : Bytes) :
    Bytes × NoiseSession :=
  let r := s.transport.write_message plaintext
  (r.1, { s with transport := r.2, message_count := s.message_count + 1 })

/-- `NoiseSession::decrypt` of `src/server.rs` (lines 91-101). -/
def NoiseSession.decrypt (s : NoiseSession) (ciphertext : Bytes) :
    Except NoiseError (Bytes × NoiseSession) :=
  match s.transport.read_message ciphertext with
  | some (pt, t) =>
    Except.ok (pt, { s with transport := t, message_count := s.message_count + 1 })
  | none => Except.error (NoiseError.DecryptionError "decryption failed")

/-- `NoiseSession::perform_rekey` of `src/server.rs` (lines 103-117):
increment the rekey counter, rotate the outgoing then the incoming cipher
state, and schedule the next deadline from a fresh random draw (passed as the
`next_interval` parameter). -/
def NoiseSession.perform_rekey (s : NoiseSession) (now next_interval : Nat) :
    NoiseSession :=
  { s with transport := (s.transport.rekey_outgoing).rekey_incoming,
           next_rekey_time := now + next_interval,
           rekey_count := s.rekey_count + 1 }

/-- `NoiseSession::should_rekey` of `src/server.rs` (lines 119-121). -/
def NoiseSession.should_rekey (s : NoiseSession) (now : Nat) : Bool :=
  decide (s.next_rekey_time ≤ now)

/-- The due branch of the server `timer_task` of `src/server.rs`
(lines 209-237): serialize the rekey signal, encrypt it under the current
(old) key, emit the ciphertext, and only then perform the local rotation. -/
def timerRekeyStep (s : NoiseSession) (now next_interval : Nat) :
    Bytes × NoiseSession :=
  let r := s.encrypt (serializeControl ControlMessage.Rekey)
  (r.1, r.2.perform_rekey now next_interval)

/-- One iteration of the server `incoming_task` loop of `src/server.rs`
(lines 243-291): decrypt binary frames, display chat, display a rekey
acknowledgment (the server never rotates on receipt), display and drop decode
failures, continue on decryption errors, stop on close. -/
def incomingStep (s : NoiseSession) (msg : WsMessage) : NoiseSession × LoopAction :=
  match msg with
  | .Binary data =>
    match s.decrypt data with
    | .ok r =>
      match deserializeControl r.1 with
      | some (ControlMessage.Chat _ _) => (r.2, LoopAction.cont)
      | some ControlMessage.Rekey => (r.2, LoopAction.cont)
      | none => (r.2, LoopAction.cont)
    | .error _ => (s, LoopAction.cont)
  | .Close => (s, LoopAction.stop)
  | .Other => (s, LoopAction.cont)

end Server

/-- The two peers of the `server.rs`/`client.rs` pair hold transport states in
sync (matching directional keys and nonces in both directions). -/
def SessSync (ss : Server.NoiseSession) (cs : Client.NoiseSession) : Prop :=
  Sync ss.transport cs.transport

instance (ss : Server.NoiseSession) (cs : Client.NoiseSession) :
    Decidable (SessSync ss cs) := by
  unfold SessSync
  infer_instance

theorem roundtrip_server_to_client (ss : Server.NoiseSession)
    (cs : Client.NoiseSession) (h : SessSync ss cs) (m : Bytes)
    (hv : ValidBytes m) :
    cs.decrypt (ss.encrypt m).1
      = Except.ok (m,
          { cs with
            transport :=
              { cs.transport with
                recv := { key := cs.transport.recv.key,
                          nonce := cs.transport.recv.nonce + 1 } },
            message_count := cs.message_count + 1 }) ∧
    SessSync (ss.encrypt m).2
      { cs with
        transport :=
          { cs.transport with
            recv := { key := cs.transport.recv.key,
                      nonce := cs.transport.recv.nonce + 1 } },
        message_count := cs.message_count + 1 } := by
  have hr := read_write_of_sync ss.transport cs.transport h m hv
  constructor
  · unfold Client.NoiseSession.decrypt Server.NoiseSession.encrypt
    simp only []
    rw [hr]
  · exact sync_step ss.transport cs.transport h

theorem roundtrip_client_to_server (ss : Server.NoiseSession)
    (cs : Client.NoiseSession) (h : SessSync ss cs) (m : Bytes)
    (hv : ValidBytes m) :
    ss.decrypt (cs.encrypt m).1
      = Except.ok (m,
          { ss with
            transport :=
              { ss.transport with
                recv := { key := ss.transport.recv.key,
                          nonce := ss.transport.recv.nonce + 1 } },
            message_count := ss.message_count + 1 }) ∧
    SessSync
      { ss with
        transport :=
          { ss.transport with
            recv := { key := ss.transport.recv.key,
                      nonce := ss.transport.recv.nonce + 1 } },
        message_count := ss.message_count + 1 }
      (cs.encrypt m).2 := by
  have hsw : Sync cs.transport ss.transport := sync_swap _ _ h
  have hr := read_write_of_sync cs.transport ss.transport hsw m hv
  constructor
  · unfold Server.NoiseSession.decrypt Client.NoiseSession.encrypt
    simp only []
    rw [hr]
  · exact sync_swap _ _ (sync_step cs.transport ss.transport hsw)

/-- Sequentially encrypt each message on the server session and decrypt the
resulting ciphertext on the client session, collecting the recovered
plaintexts (in-order delivery of one direction of traffic). -/
def chainSC (ss : Server.NoiseSession) (cs : Client.NoiseSession) :
    List Bytes → Option (Server.NoiseSession × Client.NoiseSession × List Bytes)
  | [] => some (ss, cs, [])
  | m :: rest =>
    let r := ss.encrypt m
    match cs.decrypt r.1 with
    | .ok q =>
      match chainSC r.2 q.2 rest with
      | some w => some (w.1, w.2.1, q.1 :: w.2.2)
      | none => none
    | .error _ => none

/-- Sequentially encrypt each message on the client session and decrypt the
resulting ciphertext on the server session, collecting the recovered
plaintexts. -/
def chainCS (ss : Server.NoiseSession) (cs : Client.NoiseSession) :
    List Bytes → Option (Server.NoiseSession × Client.NoiseSession × List Bytes)
  | [] => some (ss, cs, [])
  | m :: rest =>
    let r := cs.encrypt m
    match ss.decrypt r.1 with
    | .ok q =>
      match chainCS q.2 r.2 rest with
      | some w => some (w.1, w.2.1, q.1 :: w.2.2)
      | none => none
    | .error _ => none

theorem chainSC_of_sync (ms : List Bytes) :
    ∀ ss cs, SessSync ss cs → (∀ m ∈ ms, ValidBytes m) →
      ∃ ss2 cs2, chainSC ss cs ms = some (ss2, cs2, ms) ∧ SessSync ss2 cs2 := by
  induction ms with
  | nil =>
    intro ss cs h _
    exact ⟨ss, cs, rfl, h⟩
  | cons m rest ih =>
    intro ss cs h hv
    have hm : ValidBytes m := hv m (List.mem_cons_self m rest)
    have hrest : ∀ x ∈ rest, ValidBytes x := fun x hx => hv x (List.mem_cons_of_mem m hx)
    obtain ⟨hd, hs⟩ := roundtrip_server_to_client ss cs h m hm
    obtain ⟨ss2, cs2, hc, hsync⟩ := ih _ _ hs hrest
    refine ⟨ss2, cs2, ?_, hsync⟩
    unfold chainSC
    simp only []
    rw [hd]
    simp only []
    rw [hc]

theorem chainCS_of_sync (ms : List Bytes) :
    ∀ ss cs, SessSync ss cs → (∀ m ∈ ms, ValidBytes m) →
      ∃ ss2 cs2, chainCS ss cs ms = some (ss2, cs2, ms) ∧ SessSync ss2 cs2 := by
  induction ms with
  | nil =>
    intro ss cs h _
    exact ⟨ss, cs, rfl, h⟩
  | cons m rest ih =>
    intro ss cs h hv
    have hm : ValidBytes m := hv m (List.mem_cons_self m rest)
    have hrest : ∀ x ∈ rest, ValidBytes x := fun x hx => hv x (List.mem_cons_of_mem m hx)
    obtain ⟨hd, hs⟩ := roundtrip_client_to_server ss cs h m hm
    obtain ⟨ss2, cs2, hc, hsync⟩ := ih _ _ hs hrest
    refine ⟨ss2, cs2, ?_, hsync⟩
    unfold chainCS
    simp only []
    rw [hd]
    simp only []
    rw [hc]

/-- The complete rekey ceremony executed on both sides (spec §4.4): the
server's due timer iteration emits the signal ciphertext and rotates, and the
client's incoming iteration consumes that ciphertext, recognizes the signal
and rotates. -/
def ceremony (ss : Server.NoiseSession) (cs : Client.NoiseSession)
    (now next_interval : Nat) : Server.NoiseSession × Client.NoiseSession :=
  let r := Server.timerRekeyStep ss now next_interval
  (r.2, (Client.incomingStep cs (WsMessage.Binary r.1)).1)

theorem ceremony_spec (ss : Server.NoiseSession) (cs : Client.NoiseSession)
    (now next_interval : Nat) (h : SessSync ss cs) :
    (ceremony ss cs now next_interval).1.rekey_count = ss.rekey_count + 1 ∧
    (ceremony ss cs now next_interval).2.rekey_count = cs.rekey_count + 1 ∧
    SessSync (ceremony ss cs now next_interval).1
             (ceremony ss cs now next_interval).2 := by
  have hv : ValidBytes (serializeControl ControlMessage.Rekey) := by decide
  obtain ⟨hd, _⟩ :=
    roundtrip_server_to_client ss cs h (serializeControl ControlMessage.Rekey) hv
  obtain ⟨h1, h2⟩ := h
  unfold ceremony Server.timerRekeyStep
  simp only []
  unfold Client.incomingStep
  simp only []
  rw [hd]
  simp only [deserializeControl, serializeControl]
  refine ⟨rfl, rfl, ?_, ?_⟩
  · unfold Server.NoiseSession.perform_rekey Client.NoiseSession.perform_rekey
    unfold Server.NoiseSession.encrypt TransportState.write_message
    unfold TransportState.rekey_outgoing TransportState.rekey_incoming
    unfold CipherState.rekey
    simp only []
    rw [h1]
  · unfold Server.NoiseSession.perform_rekey Client.NoiseSession.perform_rekey
    unfold Server.NoiseSession.encrypt TransportState.write_message
    unfold TransportState.rekey_outgoing TransportState.rekey_incoming
    unfold CipherState.rekey
    simp only []
    rw [h2]

namespace QkdServer

/-- `struct ChatMessage` of `src/qkd_server.rs` (lines 18-22). -/
structure ChatMessage where
  sender : String
  content : String
deriving DecidableEq

/-- `struct ServerCommand` of `src/qkd_server.rs` (lines 24-28): `target`
is `None` for a broadcast and `Some(name)` for one specific client. -/
structure ServerCommand where
  target : Option String
  message : ChatMessage
deriving DecidableEq

/-- `struct NoiseSession` of `src/qkd_server.rs` (lines 49-51): the bare
transport wrapper of the relay (no counters). -/
structure NoiseSession where
  transport : TransportState
deriving DecidableEq

/-- `NoiseSession::encrypt` of `src/qkd_server.rs` (lines 58-66). -/
def NoiseSession.encrypt (s : NoiseSession) (plaintext : Bytes) :
    Bytes × NoiseSession :=
  let r := s.transport.write_message plaintext
  (r.1, { transport := r.2 })

/-- `NoiseSession::decrypt` of `src/qkd_server.rs` (lines 68-76). -/
def NoiseSession.decrypt (s : NoiseSession) (ciphertext : Bytes) :
    Except NoiseError (Bytes × NoiseSession) :=
  match s.transport.read_message ciphertext with
  | some r => Except.ok (r.1, { transport := r.2 })
  | none => Except.error (NoiseError.DecryptionError "decryption failed")

/-- Modelled from the spec: serde_json serialization of `ChatMessage`
(spec §4.5, content shape `(sender, text)`). -/
def serializeChat (m : ChatMessage) : Bytes :=
  encodeStr m.sender ++ encodeStr m.content

/-- The per-connection delivery predicate of `server_cmd_task` in
`src/qkd_server.rs` (lines 312-315): deliver when the command has no target
or the target equals this connection's registered name. -/
def cmdShouldSend (cmd : ServerCommand) (clientName : String) : Bool :=
  match cmd.target with
  | none => true
  | some targetName => targetName == clientName

/-- The per-connection delivery predicate of `broadcast_task` in
`src/qkd_server.rs` (line 295): deliver unless this connection originated the
message. -/
def broadcastShouldSend (msg : ChatMessage) (clientName : String) : Bool :=
  msg.sender != clientName

/-- A registered connection of the relay: its display name and the owned
session. -/
structure Conn where
  name : String
  session : NoiseSession

/-- Fan-out of one operator command over the registered connections, as each
connection's `server_cmd_task` performs it (`src/qkd_server.rs`,
lines 310-329): each selected connection encrypts the serialized message on
its own session. -/
def cmdFanout (cmd : ServerCommand) : List Conn → List (String × Bytes)
  | [] => []
  | c :: rest =>
    if cmdShouldSend cmd c.name then
      (c.name, (c.session.encrypt (serializeChat cmd.message)).1) :: cmdFanout cmd rest
    else cmdFanout cmd rest

/-- Fan-out of one published content message over the registered connections,
as each connection's `broadcast_task` performs it (`src/qkd_server.rs`,
lines 293-307). -/
def broadcastFanout (msg : ChatMessage) : List Conn → List (String × Bytes)
  | [] => []
  | c :: rest =>
    if broadcastShouldSend msg c.name then
      (c.name, (c.session.encrypt (serializeChat msg)).1) :: broadcastFanout msg rest
    else broadcastFanout msg rest

end QkdServer

/-- `enum QkdError` of `src/qkd_module.rs` (lines 57-63). -/
inductive QkdError
  | ConfigError (msg : String)
  | CertificateError (msg : String)
  | KeyRetrievalError (msg : String)
  | NetworkError (msg : String)
deriving DecidableEq

/-- The key-length validation of `get_key_for_user` in `src/lib.rs`
(lines 53-64): a retrieved key whose length is not exactly 32 bytes is
rejected with the key-length-mismatch error before any channel can be
seeded. -/
def get_key_for_user_validate (key_vec : Bytes) : Except QkdError Bytes :=
  if key_vec.length ≠ 32 then
    Except.error (QkdError.KeyRetrievalError "Expected 32-byte key")
  else Except.ok key_vec

/-- A network interaction of the secure-channel construction in `bob.rs`:
opening the WebSocket connection, or sending a frame on it. -/
inductive ChannelEvent
  | wsConnect
  | wsText (s : String)
  | wsBinary (b : Bytes)
deriving DecidableEq

/-- The channel-construction prefix of `main` in `src/bob.rs` (lines 94-108):
validate the retrieved key's size, and only when it is exactly 32 bytes open
the WebSocket connection.  Returns the outcome together with the channel
network events performed. -/
def bobChannelSetup (qkd_key : Bytes) : Except String Bytes × List ChannelEvent :=
  if qkd_key.length ≠ 32 then
    (Except.error "Invalid key size from QKD system", [])
  else
    (Except.ok qkd_key, [ChannelEvent.wsConnect])

instance {α β : Type} [DecidableEq α] [DecidableEq β] : DecidableEq (Except α β)
  | .ok x, .ok y =>
    match decEq x y with
    | isTrue h => isTrue (h ▸ rfl)
    | isFalse h => isFalse (fun hc => h (Except.ok.inj hc))
  | .ok _, .error _ => isFalse (fun hc => Except.noConfusion hc)
  | .error _, .ok _ => isFalse (fun hc => Except.noConfusion hc)
  | .error x, .error y =>
    match decEq x y with
    | isTrue h => isTrue (h ▸ rfl)
    | isFalse h => isFalse (fun hc => h (Except.error.inj hc))

theorem cmdFanout_names (cmd : QkdServer.ServerCommand) (conns : List QkdServer.Conn) :
    (QkdServer.cmdFanout cmd conns).map Prod.fst
      = (conns.map QkdServer.Conn.name).filter (fun n => QkdServer.cmdShouldSend cmd n) := by
  induction conns with
  | nil => rfl
  | cons c rest ih =>
    unfold QkdServer.cmdFanout
    cases hc : QkdServer.cmdShouldSend cmd c.name with
    | true => simp [hc, List.filter_cons, ih]
    | false => simp [hc, List.filter_cons, ih]

theorem broadcastFanout_names (msg : QkdServer.ChatMessage)
    (conns : List QkdServer.Conn) :
    (QkdServer.broadcastFanout msg conns).map Prod.fst
      = (conns.map QkdServer.Conn.name).filter
          (fun n => QkdServer.broadcastShouldSend msg n) := by
  induction conns with
  | nil => rfl
  | cons c rest ih =>
    unfold QkdServer.broadcastFanout
    cases hc : QkdServer.broadcastShouldSend msg c.name with
    | true => simp [hc, List.filter_cons, ih]
    | false => simp [hc, List.filter_cons, ih]

theorem server_decrypt_ok_fields (ss ss1 : Server.NoiseSession) (ct pt : Bytes)
    (h : ss.decrypt ct = Except.ok (pt, ss1)) :
    ss1.message_count = ss.message_count + 1 ∧ ss1.rekey_count = ss.rekey_count ∧
    ss1.next_rekey_time = ss.next_rekey_time := by
  unfold Server.NoiseSession.decrypt at h
  cases hm : ss.transport.read_message ct with
  | some r =>
    rw [hm] at h
    simp only [Except.ok.injEq, Prod.mk.injEq] at h
    obtain ⟨_, h2⟩ := h
    rw [← h2]
    exact ⟨rfl, rfl, rfl⟩
  | none =>
    rw [hm] at h
    exact absurd h (by simp)

theorem client_decrypt_ok_fields (cs cs1 : Client.NoiseSession) (ct pt : Bytes)
    (h : cs.decrypt ct = Except.ok (pt, cs1)) :
    cs1.message_count = cs.message_count + 1 ∧ cs1.rekey_count = cs.rekey_count := by
  unfold Client.NoiseSession.decrypt at h
  cases hm : cs.transport.read_message ct with
  | some r =>
    rw [hm] at h
    simp only [Except.ok.injEq, Prod.mk.injEq] at h
    obtain ⟨_, h2⟩ := h
    rw [← h2]
    exact ⟨rfl, rfl⟩
  | none =>
    rw [hm] at h
    exact absurd h (by simp)

/-- The concrete PSK of the spec's scenario: 32 zero bytes. -/
def wPsk : Bytes := List.replicate 32 0

/-- A placeholder transport state, used only as a `getD` default. -/
def wZeroT : TransportState :=
  { send := { key := 0, nonce := 0 }, recv := { key := 0, nonce := 0 } }

/-- The transport-state pair of a concrete completed handshake under the
all-zero PSK (initiator first). -/
def wPair : TransportState × TransportState :=
  (noiseHandshake wPsk 1 2 3 4).getD (wZeroT, wZeroT)

/-- A concrete initiator session ("Alice", `client.rs` wrapper). -/
def wCs : Client.NoiseSession := Client.NoiseSession.new wPair.1

/-- A concrete responder session ("Server", `server.rs` wrapper). -/
def wSs : Server.NoiseSession := Server.NoiseSession.new wPair.2 0 30

/-- The UTF-8 bytes of `"hello"`. -/
def helloBytes : Bytes := [104, 101, 108, 108, 111]

/-- Extract the updated client session from a successful decrypt result. -/
def okClientOf (r : Except NoiseError (Bytes × Client.NoiseSession))
    (d : Client.NoiseSession) : Client.NoiseSession :=
  match r with
  | .ok q => q.2
  | .error _ => d

/-- Extract the updated server session from a successful decrypt result. -/
def okServerOf (r : Except NoiseError (Bytes × Server.NoiseSession))
    (d : Server.NoiseSession) : Server.NoiseSession :=
  match r with
  | .ok q => q.2
  | .error _ => d

/-- The responder session after decrypting the concrete `"hello"`
ciphertext. -/
def wHelloSs1 : Server.NoiseSession :=
  okServerOf (wSs.decrypt (wCs.encrypt helloBytes).1) wSs

/-- C1: for every byte sequence `m`, after initiator and responder complete
the 3-message handshake with the same valid 32-byte PSK, decrypting the
ciphertext produced by one side's `encrypt` on the other side's session
returns exactly `m`, in each direction independently. -/
theorem c1_handshake_roundtrip (psk : Bytes) (eI eR sI sR now iv : Nat)
    (m : Bytes) (hpsk : psk.length = 32) (hm : ValidBytes m) :
    ∃ ti tr, noiseHandshake psk eI eR sI sR = some (ti, tr) ∧
      (∃ s1, (Server.NoiseSession.new tr now iv).decrypt
          (((Client.NoiseSession.new ti).encrypt m).1)
        = Except.ok (m, s1)) ∧
      (∃ c1, (Client.NoiseSession.new ti).decrypt
          (((Server.NoiseSession.new tr now iv).encrypt m).1)
        = Except.ok (m, c1)) := by
  unfold noiseHandshake
  rw [if_pos hpsk]
  refine ⟨_, _, rfl, ?_, ?_⟩
  · exact ⟨_, (roundtrip_client_to_server _ _ ⟨rfl, rfl⟩ m hm).1⟩
  · exact ⟨_, (roundtrip_server_to_client _ _ ⟨rfl, rfl⟩ m hm).1⟩

/-- C1 witness: the round-trip property instantiated at the all-zero 32-byte
PSK and the message `"hello"`. -/
theorem c1_handshake_roundtrip_witness :
    (wPsk.length = 32 ∧ ValidBytes helloBytes) ∧
    (∃ ti tr, noiseHandshake wPsk 1 2 3 4 = some (ti, tr) ∧
      (∃ s1, (Server.NoiseSession.new tr 0 30).decrypt
          (((Client.NoiseSession.new ti).encrypt helloBytes).1)
        = Except.ok (helloBytes, s1)) ∧
      (∃ c1, (Client.NoiseSession.new ti).decrypt
          (((Server.NoiseSession.new tr 0 30).encrypt helloBytes).1)
        = Except.ok (helloBytes, c1))) :=
  ⟨⟨by decide, by decide⟩,
   c1_handshake_roundtrip wPsk 1 2 3 4 0 30 helloBytes (by decide) (by decide)⟩

/-- C2: after one rekey ceremony executed on both sides (the server rotates
after producing the rekey-signal ciphertext, the client rotates after
decrypting it), every subsequent in-order encrypt/decrypt round-trip in
either direction still returns the original plaintexts, and each session's
rekey counter is exactly one greater than before the ceremony. -/
theorem c2_rekey_ceremony (ss : Server.NoiseSession) (cs : Client.NoiseSession)
    (now iv : Nat) (h : SessSync ss cs) :
    (ceremony ss cs now iv).1.rekey_count = ss.rekey_count + 1 ∧
    (ceremony ss cs now iv).2.rekey_count = cs.rekey_count + 1 ∧
    (∀ ms : List Bytes, (∀ m ∈ ms, ValidBytes m) →
      ∃ ss2 cs2, chainSC (ceremony ss cs now iv).1 (ceremony ss cs now iv).2 ms
          = some (ss2, cs2, ms)) ∧
    (∀ ms : List Bytes, (∀ m ∈ ms, ValidBytes m) →
      ∃ ss2 cs2, chainCS (ceremony ss cs now iv).1 (ceremony ss cs now iv).2 ms
          = some (ss2, cs2, ms)) := by
  obtain ⟨h1, h2, h3⟩ := ceremony_spec ss cs now iv h
  refine ⟨h1, h2, ?_, ?_⟩
  · intro ms hv
    obtain ⟨ss2, cs2, hc, _⟩ := chainSC_of_sync ms _ _ h3 hv
    exact ⟨ss2, cs2, hc⟩
  · intro ms hv
    obtain ⟨ss2, cs2, hc, _⟩ := chainCS_of_sync ms _ _ h3 hv
    exact ⟨ss2, cs2, hc⟩

/-- C2 witness: the ceremony at a concrete synced handshake pair increments
both rekey counters by exactly one. -/
theorem c2_rekey_ceremony_witness :
    SessSync wSs wCs ∧
    (ceremony wSs wCs 100 45).1.rekey_count = wSs.rekey_count + 1 ∧
    (ceremony wSs wCs 100 45).2.rekey_count = wCs.rekey_count + 1 := by
  have h : SessSync wSs wCs := by decide
  have r := c2_rekey_ceremony wSs wCs 100 45 h
  exact ⟨h, r.1, r.2.1⟩

/-- C3: for every session state, `perform_rekey` rotates both the send and
the receive cipher state via the one-way derivation seeded by the existing
keys and resets both directional nonce counters to zero in the same update,
on the server session and on the client session alike. -/
theorem c3_perform_rekey_resets (s : Server.NoiseSession)
    (c : Client.NoiseSession) (now iv : Nat) :
    (s.perform_rekey now iv).transport.send
        = { key := rekeyKey s.transport.send.key, nonce := 0 } ∧
    (s.perform_rekey now iv).transport.recv
        = { key := rekeyKey s.transport.recv.key, nonce := 0 } ∧
    (c.perform_rekey).transport.send
        = { key := rekeyKey c.transport.send.key, nonce := 0 } ∧
    (c.perform_rekey).transport.recv
        = { key := rekeyKey c.transport.recv.key, nonce := 0 } := by
  obtain ⟨⟨⟨ssk, ssn⟩, ⟨srk, srn⟩⟩, smc, snt, src⟩ := s
  obtain ⟨⟨⟨csk, csn⟩, ⟨crk, crn⟩⟩, cmc, crc⟩ := c
  exact ⟨rfl, rfl, rfl, rfl⟩

/-- C4: the server's due timer iteration emits the rekey-signal ciphertext
encrypted under the pre-rotation send key and nonce, and applies its own
rotation only to the post-encryption state; the client applies its rotation
inside the same loop iteration, to the state resulting from successfully
decrypting that ciphertext under the old key, before any further message is
processed. -/
theorem c4_rekey_ordering (ss : Server.NoiseSession) (now iv : Nat)
    (cs : Client.NoiseSession) (ct pt : Bytes) (cs1 : Client.NoiseSession)
    (hd : cs.decrypt ct = Except.ok (pt, cs1))
    (hp : deserializeControl pt = some ControlMessage.Rekey) :
    (Server.timerRekeyStep ss now iv).1
        = aeadEncrypt ss.transport.send.key ss.transport.send.nonce
            (serializeControl ControlMessage.Rekey) ∧
    (Server.timerRekeyStep ss now iv).2
        = ((ss.encrypt (serializeControl ControlMessage.Rekey)).2).perform_rekey
            now iv ∧
    Client.incomingStep cs (WsMessage.Binary ct)
        = (cs1.perform_rekey, LoopAction.cont) := by
  refine ⟨rfl, rfl, ?_⟩
  unfold Client.incomingStep
  simp only [hd, hp]

/-- The rekey-signal ciphertext the concrete server session emits. -/
def wRekeyCt : Bytes := (wSs.encrypt (serializeControl ControlMessage.Rekey)).1

/-- The concrete client session after decrypting that signal. -/
def wCs1 : Client.NoiseSession := okClientOf (wCs.decrypt wRekeyCt) wCs

/-- C4 witness: the concrete client session rotates exactly on decoding the
concrete rekey-signal ciphertext. -/
theorem c4_rekey_ordering_witness :
    (wCs.decrypt wRekeyCt
        = Except.ok (serializeControl ControlMessage.Rekey, wCs1) ∧
     deserializeControl (serializeControl ControlMessage.Rekey)
        = some ControlMessage.Rekey) ∧
    Client.incomingStep wCs (WsMessage.Binary wRekeyCt)
        = (wCs1.perform_rekey, LoopAction.cont) := by
  have hd : wCs.decrypt wRekeyCt
      = Except.ok (serializeControl ControlMessage.Rekey, wCs1) := by decide
  have hp : deserializeControl (serializeControl ControlMessage.Rekey)
      = some ControlMessage.Rekey := by decide
  exact ⟨⟨hd, hp⟩, (c4_rekey_ordering wSs 0 30 wCs wRekeyCt _ wCs1 hd hp).2.2⟩

/-- C5: a decrypt call on a corrupted or out-of-place ciphertext fails with
exactly one `DecryptionError`; the receive loop drops the message and
continues with the session unchanged, so the outcome of handling the next
correctly-ordered ciphertext is exactly what it would have been without the
failure. -/
theorem c5_decrypt_failure_isolated (s : Server.NoiseSession)
    (bad good : Bytes) (e : NoiseError)
    (h : s.decrypt bad = Except.error e) :
    (∃ msg, e = NoiseError.DecryptionError msg) ∧
    Server.incomingStep s (WsMessage.Binary bad) = (s, LoopAction.cont) ∧
    Server.incomingStep (Server.incomingStep s (WsMessage.Binary bad)).1
        (WsMessage.Binary good)
      = Server.incomingStep s (WsMessage.Binary good) := by
  have he : ∃ msg, e = NoiseError.DecryptionError msg := by
    unfold Server.NoiseSession.decrypt at h
    cases hm : s.transport.read_message bad with
    | some r =>
      rw [hm] at h
      exact absurd h (by simp)
    | none =>
      rw [hm] at h
      simp only [Except.error.injEq] at h
      exact ⟨_, h.symm⟩
  have hstep : Server.incomingStep s (WsMessage.Binary bad)
      = (s, LoopAction.cont) := by
    unfold Server.incomingStep
    simp only [h]
  exact ⟨he, hstep, by rw [hstep]⟩

/-- C5 witness: the empty ciphertext fails on the concrete server session and
leaves the loop state unchanged. -/
theorem c5_decrypt_failure_isolated_witness :
    wSs.decrypt [] = Except.error (NoiseError.DecryptionError "decryption failed") ∧
    Server.incomingStep wSs (WsMessage.Binary []) = (wSs, LoopAction.cont) := by
  have h : wSs.decrypt ([] : Bytes)
      = Except.error (NoiseError.DecryptionError "decryption failed") := by decide
  exact ⟨h, (c5_decrypt_failure_isolated wSs [] [9] _ h).2.1⟩

/-- C6: a retrieved pre-shared key whose length is not exactly 32 bytes makes
channel construction fail with the key-length-mismatch error (the spec's
`KeyMismatchError`, raised as `QkdError::KeyRetrievalError` in `lib.rs` and
as the key-size error in `bob.rs`), and in that case no channel network
interaction (connect, handshake) is performed at all. -/
theorem c6_psk_length_precondition (k : Bytes) (h : k.length ≠ 32) :
    get_key_for_user_validate k
        = Except.error (QkdError.KeyRetrievalError "Expected 32-byte key") ∧
    bobChannelSetup k = (Except.error "Invalid key size from QKD system", []) := by
  unfold get_key_for_user_validate bobChannelSetup
  rw [if_pos h, if_pos h]
  exact ⟨rfl, rfl⟩

/-- C6 witness: a 31-byte key is rejected with no channel network events. -/
theorem c6_psk_length_precondition_witness :
    (List.replicate 31 0 : Bytes).length ≠ 32 ∧
    get_key_for_user_validate (List.replicate 31 0)
        = Except.error (QkdError.KeyRetrievalError "Expected 32-byte key") ∧
    bobChannelSetup (List.replicate 31 0)
        = (Except.error "Invalid key size from QKD system", []) := by
  have h : (List.replicate 31 0 : Bytes).length ≠ 32 := by decide
  have r := c6_psk_length_precondition (List.replicate 31 0) h
  exact ⟨h, r.1, r.2⟩

/-- C7: every ciphertext produced by `encrypt` is exactly 16 bytes (the AEAD
tag) longer than its plaintext, on all three `NoiseSession` variants; in
particular, on a session pair handshaken under the all-zero 32-byte PSK,
encrypting the 5-byte `"hello"` yields a 21-byte ciphertext that the peer
decrypts back to exactly `"hello"`. -/
theorem c7_ciphertext_length :
    (∀ (s : Client.NoiseSession) (pt : Bytes),
        ((s.encrypt pt).1).length = pt.length + 16) ∧
    (∀ (s : Server.NoiseSession) (pt : Bytes),
        ((s.encrypt pt).1).length = pt.length + 16) ∧
    (∀ (s : QkdServer.NoiseSession) (pt : Bytes),
        ((s.encrypt pt).1).length = pt.length + 16) ∧
    (wCs.encrypt helloBytes).1.length = 21 ∧
    wSs.decrypt (wCs.encrypt helloBytes).1 = Except.ok (helloBytes, wHelloSs1) := by
  refine ⟨?_, ?_, ?_, by decide, by decide⟩
  · intro s pt
    exact length_aeadEncrypt _ _ _
  · intro s pt
    exact length_aeadEncrypt _ _ _
  · intro s pt
    exact length_aeadEncrypt _ _ _

/-- C8: an operator command targeted at a specific name is encrypted and
delivered exactly on the connections registered under that name; an
untargeted command is delivered to every connection; a content message
originated by one connection is broadcast to every other connection and never
echoed back to a connection bearing the originator's name. -/
theorem c8_relay_addressing (conns : List QkdServer.Conn)
    (m : QkdServer.ChatMessage) (t name : String) :
    ((QkdServer.cmdFanout { target := some t, message := m } conns).map Prod.fst
        = (conns.map QkdServer.Conn.name).filter (fun n => t == n)) ∧
    ((QkdServer.cmdFanout { target := none, message := m } conns).map Prod.fst
        = conns.map QkdServer.Conn.name) ∧
    ((QkdServer.broadcastFanout m conns).map Prod.fst
        = (conns.map QkdServer.Conn.name).filter (fun n => m.sender != n)) ∧
    (name ∈ (QkdServer.cmdFanout { target := some t, message := m } conns).map
        Prod.fst ↔ (name ∈ conns.map QkdServer.Conn.name ∧ name = t)) ∧
    (name ∈ (QkdServer.broadcastFanout m conns).map Prod.fst
        ↔ (name ∈ conns.map QkdServer.Conn.name ∧ name ≠ m.sender)) := by
  have h1 := cmdFanout_names { target := some t, message := m } conns
  have h2 := cmdFanout_names { target := none, message := m } conns
  have h3 := broadcastFanout_names m conns
  refine ⟨h1, ?_, h3, ?_, ?_⟩
  · rw [h2]
    simp [QkdServer.cmdShouldSend]
  · rw [h1]
    simp only [List.mem_filter, QkdServer.cmdShouldSend, beq_iff_eq]
    constructor
    · rintro ⟨ha, hb⟩
      exact ⟨ha, hb.symm⟩
    · rintro ⟨ha, hb⟩
      exact ⟨ha, hb.symm⟩
  · rw [h3]
    simp only [List.mem_filter, QkdServer.broadcastShouldSend, bne_iff_ne, ne_eq]
    constructor
    · rintro ⟨ha, hb⟩
      exact ⟨ha, fun hc => hb hc.symm⟩
    · rintro ⟨ha, hb⟩
      exact ⟨ha, fun hc => hb hc.symm⟩

/-- C9: an inbound frame that decrypts successfully but whose plaintext fails
to decode as a known envelope (malformed structure or an unrecognized control
kind) is dropped; the receive loop continues and the session is exactly the
post-decrypt session, on the client loop and on the server loop alike. -/
theorem c9_decode_failure_nonfatal (cs : Client.NoiseSession)
    (ss : Server.NoiseSession) (ctC ctS ptC ptS : Bytes)
    (cs1 : Client.NoiseSession) (ss1 : Server.NoiseSession)
    (hc : cs.decrypt ctC = Except.ok (ptC, cs1))
    (hcp : deserializeControl ptC = none)
    (hs : ss.decrypt ctS = Except.ok (ptS, ss1))
    (hsp : deserializeControl ptS = none) :
    Client.incomingStep cs (WsMessage.Binary ctC) = (cs1, LoopAction.cont) ∧
    Server.incomingStep ss (WsMessage.Binary ctS) = (ss1, LoopAction.cont) := by
  constructor
  · unfold Client.incomingStep
    simp only [hc, hcp]
  · unfold Server.incomingStep
    simp only [hs, hsp]

/-- A concrete ciphertext carrying an unrecognized envelope tag, sent from
the server to the client. -/
def wUnknownCtC : Bytes := (wSs.encrypt [2]).1

/-- The concrete client session after decrypting it. -/
def wUnknownCs1 : Client.NoiseSession := okClientOf (wCs.decrypt wUnknownCtC) wCs

/-- A concrete ciphertext carrying an unrecognized envelope tag, sent from
the client to the server. -/
def wUnknownCtS : Bytes := (wCs.encrypt [3]).1

/-- The concrete server session after decrypting it. -/
def wUnknownSs1 : Server.NoiseSession := okServerOf (wSs.decrypt wUnknownCtS) wSs

/-- C9 witness: both concrete loops drop an undecodable payload and
continue. -/
theorem c9_decode_failure_nonfatal_witness :
    (wCs.decrypt wUnknownCtC = Except.ok ([2], wUnknownCs1) ∧
     deserializeControl [2] = none ∧
     wSs.decrypt wUnknownCtS = Except.ok ([3], wUnknownSs1) ∧
     deserializeControl [3] = none) ∧
    Client.incomingStep wCs (WsMessage.Binary wUnknownCtC)
        = (wUnknownCs1, LoopAction.cont) ∧
    Server.incomingStep wSs (WsMessage.Binary wUnknownCtS)
        = (wUnknownSs1, LoopAction.cont) := by
  have hc : wCs.decrypt wUnknownCtC = Except.ok ([2], wUnknownCs1) := by decide
  have hcp : deserializeControl [2] = none := by decide
  have hs : wSs.decrypt wUnknownCtS = Except.ok ([3], wUnknownSs1) := by decide
  have hsp : deserializeControl [3] = none := by decide
  obtain ⟨r1, r2⟩ := c9_decode_failure_nonfatal wCs wSs wUnknownCtC wUnknownCtS
    [2] [3] wUnknownCs1 wUnknownSs1 hc hcp hs hsp
  exact ⟨⟨hc, hcp, hs, hsp⟩, r1, r2⟩

/-- C10: a successful encrypt or decrypt increases the session's message
counter by exactly one and leaves the rekey counter and the rekey deadline
unchanged; a decrypt that returns `DecryptionError` leaves the session — and
with it the message counter, rekey counter and rekey deadline — entirely
unchanged in the continuing loop. -/
theorem c10_counter_frame (ss ss1 : Server.NoiseSession)
    (cs cs1 : Client.NoiseSession) (ct dt bad pt qt : Bytes) (e : NoiseError)
    (hs : ss.decrypt ct = Except.ok (pt, ss1))
    (hc : cs.decrypt dt = Except.ok (qt, cs1))
    (hbad : ss.decrypt bad = Except.error e) :
    (∀ p, (ss.encrypt p).2.message_count = ss.message_count + 1) ∧
    (∀ p, (ss.encrypt p).2.rekey_count = ss.rekey_count) ∧
    (∀ p, (ss.encrypt p).2.next_rekey_time = ss.next_rekey_time) ∧
    (∀ p, (cs.encrypt p).2.message_count = cs.message_count + 1) ∧
    (∀ p, (cs.encrypt p).2.rekey_count = cs.rekey_count) ∧
    ss1.message_count = ss.message_count + 1 ∧
    ss1.rekey_count = ss.rekey_count ∧
    ss1.next_rekey_time = ss.next_rekey_time ∧
    cs1.message_count = cs.message_count + 1 ∧
    cs1.rekey_count = cs.rekey_count ∧
    Server.incomingStep ss (WsMessage.Binary bad) = (ss, LoopAction.cont) := by
  obtain ⟨hs1, hs2, hs3⟩ := server_decrypt_ok_fields ss ss1 ct pt hs
  obtain ⟨hc1, hc2⟩ := client_decrypt_ok_fields cs cs1 dt qt hc
  refine ⟨fun p => rfl, fun p => rfl, fun p => rfl, fun p => rfl, fun p => rfl,
    hs1, hs2, hs3, hc1, hc2, ?_⟩
  unfold Server.incomingStep
  simp only [hbad]

/-- A concrete client-to-server ciphertext for the frame claim. -/
def wFrameCtS : Bytes := (wCs.encrypt [1]).1

/-- The concrete server session after decrypting it. -/
def wFrameSs1 : Server.NoiseSession := okServerOf (wSs.decrypt wFrameCtS) wSs

/-- A concrete server-to-client ciphertext for the frame claim. -/
def wFrameCtC : Bytes := (wSs.encrypt [4]).1

/-- The concrete client session after decrypting it. -/
def wFrameCs1 : Client.NoiseSession := okClientOf (wCs.decrypt wFrameCtC) wCs

/-- C10 witness: the frame conditions instantiated on the concrete handshake
pair, with the empty ciphertext as the failing decrypt. -/
theorem c10_counter_frame_witness :
    (wSs.decrypt wFrameCtS = Except.ok ([1], wFrameSs1) ∧
     wCs.decrypt wFrameCtC = Except.ok ([4], wFrameCs1) ∧
     wSs.decrypt []
        = Except.error (NoiseError.DecryptionError "decryption failed")) ∧
    wFrameSs1.message_count = wSs.message_count + 1 ∧
    wFrameSs1.rekey_count = wSs.rekey_count ∧
    wFrameSs1.next_rekey_time = wSs.next_rekey_time ∧
    Server.incomingStep wSs (WsMessage.Binary []) = (wSs, LoopAction.cont) := by
  have hs : wSs.decrypt wFrameCtS = Except.ok ([1], wFrameSs1) := by decide
  have hc : wCs.decrypt wFrameCtC = Except.ok ([4], wFrameCs1) := by decide
  have hb : wSs.decrypt ([] : Bytes)
      = Except.error (NoiseError.DecryptionError "decryption failed") := by decide
  have r := c10_counter_frame wSs wFrameSs1 wCs wFrameCs1 wFrameCtS wFrameCtC []
    [1] [4] (NoiseError.DecryptionError "decryption failed") hs hc hb
  exact ⟨⟨hs, hc, hb⟩, r.2.2.2.2.2.1, r.2.2.2.2.2.2.1, r.2.2.2.2.2.2.2.1,
    r.2.2.2.2.2.2.2.2.2.2⟩

end SecureWS
